import Mathlib

/-!
Verification of the fintrack ingestion and categorization pipeline.

The definitions below are a shallow embedding of the Python source:
  * `backend/app/services/csv_parser.py` (date parsing, row normalization,
    encoding fallback, row-error aggregation),
  * `backend/app/services/categorization.py` (pattern matching, rule
    evaluation, batch categorization),
  * `backend/app/routers/transactions.py` (the CSV upload / upsert loop),
  * `backend/app/models.py` (the record shapes).
Theorems about the spec's claims follow the definitions.
-/

namespace Fintrack

/-! ### Decimal amounts

Python `Decimal` values are modelled as a mantissa together with a decimal
scale: the value is `mant / 10 ^ scale`.  Equality of amounts in SQL
comparisons is numeric, not structural, which `sameVal` captures.  The
special values NaN/Infinity accepted by Python's `Decimal` constructor are
not modelled; only finite numeric literals are. -/

structure Dec where
  mant : Int
  scale : Nat
deriving DecidableEq, Repr

/-- Numeric equality of two decimals: cross-multiplied mantissas agree. -/
abbrev Dec.sameVal (a b : Dec) : Prop :=
  a.mant * (10 : Int) ^ b.scale = b.mant * (10 : Int) ^ a.scale

/-! ### Datetime values and `datetime.strptime`

`csv_parser.parse_date` calls `datetime.strptime` with one of eight fixed
format strings built from the directives `%Y %m %d %H %M %S` and literal
separators.  CPython's `_strptime` compiles each directive to a regular
expression alternation, matches with backtracking, requires the whole input
to be consumed, and finally builds a `datetime`, which validates the day
against the month length.  The matcher below reproduces exactly that:
each directive yields its candidate parses in the regex's alternation
order, and `matchToksF` backtracks through them. -/

structure DateTime where
  year : Nat
  month : Nat
  day : Nat
  hour : Nat
  minute : Nat
  second : Nat
deriving DecidableEq, Repr

/-- One token of a strptime format string: a literal character or one of
the numeric directives used by `csv_parser.py`. -/
inductive Tok where
  | lit (c : Char)
  | y4
  | mon
  | day
  | hr
  | minu
  | sec
deriving DecidableEq, Repr

def dig (c : Char) : Nat := c.toNat - 48

def isDig (c : Char) : Prop := '0' ≤ c ∧ c ≤ '9'

instance (c : Char) : Decidable (isDig c) := by unfold isDig; infer_instance

/-- Candidates for `%Y`, regex `\d\d\d\d`: exactly four digits. -/
def y4Cands : List Char → List (Nat × List Char)
  | c1 :: c2 :: c3 :: c4 :: rest =>
    if isDig c1 ∧ isDig c2 ∧ isDig c3 ∧ isDig c4 then
      [(dig c1 * 1000 + dig c2 * 100 + dig c3 * 10 + dig c4, rest)]
    else []
  | _ => []

/-- Candidates for `%m`, regex `1[0-2]|0[1-9]|[1-9]`, in alternation order. -/
def monCands : List Char → List (Nat × List Char)
  | c1 :: c2 :: rest =>
    (if c1 = '1' ∧ '0' ≤ c2 ∧ c2 ≤ '2' then [(10 + dig c2, rest)] else []) ++
    (if c1 = '0' ∧ '1' ≤ c2 ∧ c2 ≤ '9' then [(dig c2, rest)] else []) ++
    (if '1' ≤ c1 ∧ c1 ≤ '9' then [(dig c1, c2 :: rest)] else [])
  | [c1] => if '1' ≤ c1 ∧ c1 ≤ '9' then [(dig c1, [])] else []
  | [] => []

/-- Candidates for `%d`, regex `3[01]|[12]\d|0[1-9]|[1-9]`. -/
def dayCands : List Char → List (Nat × List Char)
  | c1 :: c2 :: rest =>
    (if c1 = '3' ∧ (c2 = '0' ∨ c2 = '1') then [(30 + dig c2, rest)] else []) ++
    (if (c1 = '1' ∨ c1 = '2') ∧ isDig c2 then [(10 * dig c1 + dig c2, rest)] else []) ++
    (if c1 = '0' ∧ '1' ≤ c2 ∧ c2 ≤ '9' then [(dig c2, rest)] else []) ++
    (if '1' ≤ c1 ∧ c1 ≤ '9' then [(dig c1, c2 :: rest)] else [])
  | [c1] => if '1' ≤ c1 ∧ c1 ≤ '9' then [(dig c1, [])] else []
  | [] => []

/-- Candidates for `%H`, regex `2[0-3]|[0-1]\d|\d`. -/
def hrCands : List Char → List (Nat × List Char)
  | c1 :: c2 :: rest =>
    (if c1 = '2' ∧ '0' ≤ c2 ∧ c2 ≤ '3' then [(20 + dig c2, rest)] else []) ++
    (if (c1 = '0' ∨ c1 = '1') ∧ isDig c2 then [(10 * dig c1 + dig c2, rest)] else []) ++
    (if isDig c1 then [(dig c1, c2 :: rest)] else [])
  | [c1] => if isDig c1 then [(dig c1, [])] else []
  | [] => []

/-- Candidates for `%M` and `%S`, regex `[0-5]\d|\d`. -/
def msCands : List Char → List (Nat × List Char)
  | c1 :: c2 :: rest =>
    (if '0' ≤ c1 ∧ c1 ≤ '5' ∧ isDig c2 then [(10 * dig c1 + dig c2, rest)] else []) ++
    (if isDig c1 then [(dig c1, c2 :: rest)] else [])
  | [c1] => if isDig c1 then [(dig c1, [])] else []
  | [] => []

/-- Partially filled time record, with CPython strptime's default values. -/
structure TimeParts where
  y : Nat := 1900
  mo : Nat := 1
  d : Nat := 1
  h : Nat := 0
  mi : Nat := 0
  s : Nat := 0
deriving DecidableEq, Repr

def setTok : Tok → Nat → TimeParts → TimeParts
  | .lit _, _, e => e
  | .y4, v, e => { e with y := v }
  | .mon, v, e => { e with mo := v }
  | .day, v, e => { e with d := v }
  | .hr, v, e => { e with h := v }
  | .minu, v, e => { e with mi := v }
  | .sec, v, e => { e with s := v }

def tokCands : Tok → List Char → List (Nat × List Char)
  | .lit _, _ => []
  | .y4, cs => y4Cands cs
  | .mon, cs => monCands cs
  | .day, cs => dayCands cs
  | .hr, cs => hrCands cs
  | .minu, cs => msCands cs
  | .sec, cs => msCands cs

/-- Backtracking matcher for a token list against an input, trying each
directive's candidates in regex alternation order and requiring the whole
input to be consumed (CPython raises on unconverted trailing data).  The
fuel argument only bounds the recursion; `fmt.length + 1` always
suffices, since every recursive call removes one token. -/
def matchToksF : Nat → List Tok → List Char → TimeParts → Option TimeParts
  | 0, _, _, _ => none
  | _ + 1, [], cs, e => if cs.isEmpty then some e else none
  | fuel + 1, .lit c :: ts, cs, e =>
    match cs with
    | [] => none
    | c' :: rest => if c' = c then matchToksF fuel ts rest e else none
  | fuel + 1, t :: ts, cs, e =>
    (tokCands t cs).findSome? fun vr => matchToksF fuel ts vr.2 (setTok t vr.1 e)

/-- Days in a month, with the Gregorian leap-year rule, as `datetime`
validates them. -/
def daysInMonth (y m : Nat) : Nat :=
  if m = 2 then
    if y % 4 = 0 ∧ (y % 100 ≠ 0 ∨ y % 400 = 0) then 29 else 28
  else if m = 4 ∨ m = 6 ∨ m = 9 ∨ m = 11 then 30
  else 31

/-- Construction of a `datetime` from matched parts; mirrors the range
checks of the `datetime` constructor (the directive regexes already
guarantee most of them). -/
def toDatetime (e : TimeParts) : Option DateTime :=
  if 1 ≤ e.y ∧ e.y ≤ 9999 ∧ 1 ≤ e.mo ∧ e.mo ≤ 12 ∧ 1 ≤ e.d ∧ e.d ≤ daysInMonth e.y e.mo ∧
      e.h ≤ 23 ∧ e.mi ≤ 59 ∧ e.s ≤ 59 then
    some ⟨e.y, e.mo, e.d, e.h, e.mi, e.s⟩
  else none

/-- `datetime.strptime(s, fmt)` for the formats used by `csv_parser.py`,
returning `none` where CPython raises `ValueError`. -/
def strptime (fmt : List Tok) (s : String) : Option DateTime :=
  (matchToksF (fmt.length + 1) fmt s.data {}).bind toDatetime

def fmtYMDdash : List Tok := [.y4, .lit '-', .mon, .lit '-', .day]
def fmtMDYslash : List Tok := [.mon, .lit '/', .day, .lit '/', .y4]
def fmtDMYslash : List Tok := [.day, .lit '/', .mon, .lit '/', .y4]
def fmtYMDslash : List Tok := [.y4, .lit '/', .mon, .lit '/', .day]
def fmtMDYdash : List Tok := [.mon, .lit '-', .day, .lit '-', .y4]
def fmtDMYdash : List Tok := [.day, .lit '-', .mon, .lit '-', .y4]

/-- The tokens of an appended `" %H:%M:%S"` suffix. -/
def timeToks : List Tok := [.lit ' ', .hr, .lit ':', .minu, .lit ':', .sec]

/-- The `date_formats` list of `csv_parser.parse_date`, in source order:
six date-only formats, then `"%Y-%m-%d %H:%M:%S"` and
`"%m/%d/%Y %H:%M:%S"`. -/
def date_formats : List (List Tok) :=
  [fmtYMDdash, fmtMDYslash, fmtDMYslash, fmtYMDslash, fmtMDYdash, fmtDMYdash,
   fmtYMDdash ++ timeToks, fmtMDYslash ++ timeToks]

/-- `csv_parser.parse_date`: the first format that parses wins; `none`
models the final `ValueError`. -/
def parse_date (s : String) : Option DateTime :=
  date_formats.findSome? fun f => strptime f s

/-- Refinement comparison definition, following the spec's words rather
than the source: the spec (§4.2) lists the six date-only formats "and the
same formats with an appended `HH:MM:SS`", i.e. twelve formats in all. -/
def spec_date_formats : List (List Tok) :=
  [fmtYMDdash, fmtMDYslash, fmtDMYslash, fmtYMDslash, fmtMDYdash, fmtDMYdash] ++
  ([fmtYMDdash, fmtMDYslash, fmtDMYslash, fmtYMDslash, fmtMDYdash, fmtDMYdash].map
    (· ++ timeToks))

/-- Date parsing as the spec describes it (see `spec_date_formats`). -/
def specParseDate (s : String) : Option DateTime :=
  spec_date_formats.findSome? fun f => strptime f s

/-- Refinement comparison definition following the amended wording: the
six date-only formats and time-suffixed variants of only the first two
(`YYYY-MM-DD HH:MM:SS` and `MM/DD/YYYY HH:MM:SS`), in that order. -/
def spec_date_formats_amended : List (List Tok) :=
  [fmtYMDdash, fmtMDYslash, fmtDMYslash, fmtYMDslash, fmtMDYdash, fmtDMYdash] ++
  [fmtYMDdash ++ timeToks, fmtMDYslash ++ timeToks]

/-- Date parsing as the amended claim describes it. -/
def specParseDateAmended (s : String) : Option DateTime :=
  spec_date_formats_amended.findSome? fun f => strptime f s

/-! ### Row normalization (`csv_parser.parse_csv_file`, lines 142-212)

A dataframe row is modelled by the string content of its three resolved
cells (`none` for a pandas `NaN` cell, which `str(...)` renders as
`"nan"`) plus a flag stating whether every other cell of the row is also
`NaN` (`row.isna().all()` looks at the whole row). -/

/-- Python `str.strip()` whitespace predicate (the ASCII part). -/
def isPySpace (c : Char) : Prop :=
  c = ' ' ∨ c = '\t' ∨ c = '\n' ∨ c = '\r' ∨ c = '\x0b' ∨ c = '\x0c'

instance (c : Char) : Decidable (isPySpace c) := by unfold isPySpace; infer_instance

/-- Python `str.strip()`. -/
def pyStrip (s : String) : String :=
  ⟨((s.data.dropWhile (fun c => decide (isPySpace c))).reverse.dropWhile
      (fun c => decide (isPySpace c))).reverse⟩

/-- Python `str(cell)` for a dataframe cell: a `NaN` cell prints as
`"nan"`. -/
def cellStr : Option String → String
  | none => "nan"
  | some s => s

def digitsVal (cs : List Char) : Nat := cs.foldl (fun a c => a * 10 + dig c) 0

/-- Python `Decimal(s)` on a finite numeric literal: optional sign, digits
with an optional decimal point (at least one digit in all), and an
optional exponent.  Returns `none` where the constructor raises
`InvalidOperation`.  (The special values NaN/Infinity are not modelled.) -/
def decParse (s : String) : Option Dec :=
  let (sign, cs) : Int × List Char :=
    match s.data with
    | '+' :: rest => (1, rest)
    | '-' :: rest => (-1, rest)
    | cs => (1, cs)
  let intPart := cs.takeWhile (fun c => decide (isDig c))
  let rest1 := cs.dropWhile (fun c => decide (isDig c))
  let (fracPart, rest2) : List Char × List Char :=
    match rest1 with
    | '.' :: rest => (rest.takeWhile (fun c => decide (isDig c)),
                      rest.dropWhile (fun c => decide (isDig c)))
    | _ => ([], rest1)
  if intPart.isEmpty ∧ fracPart.isEmpty then none
  else
    let expOf : List Char → Option Int := fun rest =>
      let (esign, ds) : Int × List Char :=
        match rest with
        | '+' :: ds => (1, ds)
        | '-' :: ds => (-1, ds)
        | ds => (1, ds)
      if ds.isEmpty ∨ ¬ ds.all (fun c => decide (isDig c)) then none
      else some (esign * digitsVal ds)
    let mk : Int → Option Dec := fun e =>
      let mant : Int := sign * digitsVal (intPart ++ fracPart)
      let scale : Int := (fracPart.length : Int) - e
      if 0 ≤ scale then some ⟨mant, scale.toNat⟩
      else some ⟨mant * (10 : Int) ^ (-scale).toNat, 0⟩
    match rest2 with
    | [] => mk 0
    | 'e' :: rest => (expOf rest).bind mk
    | 'E' :: rest => (expOf rest).bind mk
    | _ => none

/-- One dataframe row, as seen by the row loop after column resolution. -/
structure CsvRow where
  dateCell : Option String
  descCell : Option String
  amountCell : Option String
  otherCellsNa : Bool
deriving DecidableEq, Repr

/-- The normalized transaction dict built by the row loop. -/
structure Txn where
  account_id : Int
  date : DateTime
  description : String
  amount : Dec
  transaction_type : String
deriving DecidableEq, Repr

/-- Why a row was rejected; rendered to the strings the source builds by
`errMsg`. -/
inductive RowReason where
  | missingDate
  | dateParse (s : String)
  | missingDesc
  | missingAmount
  | invalidAmount (s : String)
deriving DecidableEq, Repr

/-- The row-error strings of the source (`f"Row {row_num}: ..."`).  The
`str(e)` fragment appended to an invalid-amount error is abstracted as a
fixed suffix. -/
def errMsg (n : Nat) : RowReason → String
  | .missingDate => "Row " ++ toString n ++ ": Missing date value"
  | .dateParse s => "Row " ++ toString n ++ ": Unable to parse date: " ++ s
  | .missingDesc => "Row " ++ toString n ++ ": Missing description value"
  | .missingAmount => "Row " ++ toString n ++ ": Missing amount value"
  | .invalidAmount s => "Row " ++ toString n ++ ": Invalid amount " ++ s ++ " - ConversionSyntax"

/-- Outcome of processing one row: silently skipped, rejected with a
reason, or normalized. -/
inductive RowOut where
  | skip
  | err (reason : RowReason)
  | ok (t : Txn)
deriving DecidableEq, Repr

/-- The body of the row loop of `parse_csv_file` (lines 146-197): check
for an all-blank row, parse the date, the description, then the amount
(after removing currency symbols and thousands separators), and derive
the transaction type from the amount's sign. -/
def processRow (acct : Int) (r : CsvRow) : RowOut :=
  if r.dateCell.isNone ∧ r.descCell.isNone ∧ r.amountCell.isNone ∧ r.otherCellsNa then .skip
  else
    let date_str := pyStrip (cellStr r.dateCell)
    if date_str = "nan" ∨ date_str = "" then .err .missingDate
    else
      match parse_date date_str with
      | none => .err (.dateParse date_str)
      | some date =>
        let description := pyStrip (cellStr r.descCell)
        if description = "" ∨ description = "nan" then .err .missingDesc
        else
          let amount_str := pyStrip (cellStr r.amountCell)
          if amount_str = "nan" ∨ amount_str = "" then .err .missingAmount
          else
            let amount_str2 :=
              pyStrip ⟨amount_str.data.filter (fun c => c ≠ '$' ∧ c ≠ ',')⟩
            match decParse amount_str2 with
            | none => .err (.invalidAmount amount_str2)
            | some amount =>
              .ok { account_id := acct, date := date, description := description,
                    amount := amount,
                    transaction_type := if amount.mant < 0 then "debit" else "credit" }

/-- The accumulation of the row loop: the transaction list and the
row-error strings, in row order.  `n` is the 1-based row number of the
current row (the loop starts at 2; the header is row 1). -/
def collectRows (acct : Int) : Nat → List CsvRow → List Txn × List String
  | _, [] => ([], [])
  | n, r :: rest =>
    let (ts, es) := collectRows acct (n + 1) rest
    match processRow acct r with
    | .skip => (ts, es)
    | .err reason => (ts, errMsg n reason :: es)
    | .ok t => (t :: ts, es)

/-- The fatal file-level error of the row phase: the structured content of
the `"No valid transactions could be parsed"` message, carrying the first
five row-error samples and the count of the remaining ones. -/
inductive FileErr where
  | noValidRows (samples : List String) (extra : Nat)
deriving DecidableEq, Repr

/-- The row phase of `parse_csv_file` (lines 142-212): process every row,
then fail only if no valid transaction remains, with up to five sample
row errors and a remainder count. -/
def parse_csv_rows (acct : Int) (rows : List CsvRow) :
    Except FileErr (List Txn × List String) :=
  let (ts, es) := collectRows acct 2 rows
  if ts.isEmpty then .error (.noValidRows (es.take 5) (es.length - 5))
  else .ok (ts, es)

/-! ### Encoding fallback (`csv_parser.parse_csv_file`, lines 61-75)

The byte string is decoded with the first encoding that succeeds from
`['utf-8', 'utf-8-sig', 'latin-1', 'cp1252', 'iso-8859-1']`.  The
decoders other than latin-1 are stdlib collaborators and are left
abstract; latin-1 maps every byte `b` to the code point `U+00b` and so
never fails. -/

def latin1Decode (bs : List (Fin 256)) : Option String :=
  some ⟨bs.map fun b => Char.ofNat b.val⟩

/-- The decoding loop: first encoding in the prioritized list that
succeeds wins; `none` models reaching the `"Unable to decode file"`
branch. -/
def decodeContent (utf8 utf8sig cp1252 iso88591 : List (Fin 256) → Option String)
    (bs : List (Fin 256)) : Option String :=
  [utf8, utf8sig, latin1Decode, cp1252, iso88591].findSome? fun d => d bs

/-! ### Rules, categories and pattern matching
(`categorization.py`, `models.py`) -/

structure Category where
  id : Int
  name : String
deriving DecidableEq, Repr

structure Rule where
  id : Int
  user_id : Int
  category_id : Int
  pattern : String
  pattern_type : String
  priority : Int
  is_active : Bool
  created_at : Nat
deriving DecidableEq, Repr

/-- Python `str.lower()`: lowercase each character. -/
def pyLower (s : String) : String := ⟨s.data.map Char.toLower⟩

/-- Python substring containment (`needle in hay`) on character lists. -/
def isSubOf (needle : List Char) : List Char → Bool
  | [] => needle.isEmpty
  | c :: rest => needle.isPrefixOf (c :: rest) || isSubOf needle rest

/-- `categorization.matches_pattern`.  The `re.search` call of the
`regex` branch is a stdlib collaborator, modelled by the oracle `reS`
taking the pattern and the text; `Except.error` models a raised
`re.error`, which the source catches and turns into a non-match. -/
def matchesPattern (reS : String → String → Except Unit Bool)
    (text pattern pattern_type : String) : Bool :=
  let text_lower := pyLower text
  let pattern_lower := pyLower pattern
  if pattern_type = "contains" then isSubOf pattern_lower.data text_lower.data
  else if pattern_type = "starts_with" then pattern_lower.data.isPrefixOf text_lower.data
  else if pattern_type = "exact" then text_lower == pattern_lower
  else if pattern_type = "regex" then
    match reS pattern text with
    | .ok b => b
    | .error _ => false
  else false

/-- `db.query(Category).filter(Category.id == cid).first()`. -/
def findCategory (cats : List Category) (cid : Int) : Option Category :=
  cats.find? fun c => c.id == cid

/-- The rule loop of `categorize_transaction` (lines 53-61) over an
already ordered rule list: the first rule whose pattern matches and whose
category id resolves supplies the category. -/
def ruleChoose (reS : String → String → Except Unit Bool) (cats : List Category)
    (desc : String) : List Rule → Option Category
  | [] => none
  | r :: rs =>
    if matchesPattern reS desc r.pattern r.pattern_type then
      match findCategory cats r.category_id with
      | some c => some c
      | none => ruleChoose reS cats desc rs
    else ruleChoose reS cats desc rs

/-- Descending-priority ordering on rules (`Rule.priority.desc()`). -/
abbrev prioGE (a b : Rule) : Prop := b.priority ≤ a.priority

/-- The filter of the rule query: active rules of the given user. -/
def activeFor (uid : Int) (r : Rule) : Bool := (r.user_id == uid) && r.is_active

/-- A list the database's rule query may return: the user's active rules
in some order with priorities descending.  `ORDER BY priority DESC`
alone leaves the relative order of equal priorities unspecified, so this
is a relation, not a function. -/
abbrev validOrder (rules : List Rule) (uid : Int) (l : List Rule) : Prop :=
  l.Perm (rules.filter (activeFor uid)) ∧ l.Pairwise prioGE

/-- One concrete order satisfying `validOrder` (used where a function is
needed, e.g. in the batch model); any choice is consistent with the
source. -/
def dbRuleOrder (rules : List Rule) (uid : Int) : List Rule :=
  List.insertionSort prioGE (rules.filter (activeFor uid))

/-! ### Stored transactions and the categorization orchestrator -/

/-- A row of the `transactions` table (`models.Transaction`). -/
structure TransactionRec where
  id : Int
  user_id : Int
  account_id : Int
  category_id : Option Int
  date : DateTime
  description : String
  amount : Dec
  transaction_type : String
  is_categorized : Bool
deriving DecidableEq, Repr

/-- `categorization.categorize_transaction`: rules first (over a valid
database ordering of the user's active rules, here the canonical
`dbRuleOrder`), then the AI collaborator (the oracle `ai`) when
`use_ai` is set.  Returns the found category together with the
transaction as committed (category assigned only on success). -/
def categorizeTransaction (reS : String → String → Except Unit Bool)
    (ai : String → Option Category) (rules : List Rule) (cats : List Category)
    (t : TransactionRec) (use_ai : Bool) : Option Category × TransactionRec :=
  match ruleChoose reS cats t.description (dbRuleOrder rules t.user_id) with
  | some c => (some c, { t with category_id := some c.id, is_categorized := true })
  | none =>
    if use_ai then
      match ai t.description with
      | some c => (some c, { t with category_id := some c.id, is_categorized := true })
      | none => (none, t)
    else (none, t)

/-- State of the batch loop of `categorize_batch`. -/
structure BatchAcc where
  db : List TransactionRec
  categorized : Nat
  uncategorized : Nat
  errors : List String
deriving DecidableEq, Repr

/-- Replace the first transaction with the given id (the object returned
by `.first()` is the one mutated). -/
def replaceTxn (tid : Int) (t' : TransactionRec) : List TransactionRec → List TransactionRec
  | [] => []
  | t :: rest => if t.id == tid then t' :: rest else t :: replaceTxn tid t' rest

/-- One iteration of `categorize_batch` (lines 130-143): a missing id is
skipped without touching any counter; otherwise the transaction is
categorized and the matching counter incremented.  The model is pure, so
the `except` branch that would append to `errors` is unreachable. -/
def batchStep (reS : String → String → Except Unit Bool) (ai : String → Option Category)
    (rules : List Rule) (cats : List Category) (use_ai : Bool)
    (st : BatchAcc) (tid : Int) : BatchAcc :=
  match st.db.find? (fun t => t.id == tid) with
  | none => st
  | some t =>
    match categorizeTransaction reS ai rules cats t use_ai with
    | (some _, t') => { st with db := replaceTxn tid t' st.db,
                                categorized := st.categorized + 1 }
    | (none, _) => { st with uncategorized := st.uncategorized + 1 }

/-- `categorization.categorize_batch` over the list of requested ids. -/
def categorize_batch (reS : String → String → Except Unit Bool)
    (ai : String → Option Category) (rules : List Rule) (cats : List Category)
    (db : List TransactionRec) (transaction_ids : List Int) (use_ai : Bool) : BatchAcc :=
  transaction_ids.foldl (batchStep reS ai rules cats use_ai) ⟨db, 0, 0, []⟩

/-! ### The upload/upsert loop (`transactions.upload_transactions`,
lines 109-138)

The duplicate query filters on the account id of the request and the
parsed record's date, amount and description.  The session runs with
`autoflush=False`, so rows `db.add`ed during the loop stay invisible to
the queries until the final `db.commit()`; they are accumulated in
`pending`.  An update overwrites the matched row with the record's
fields; since the filter equates exactly those fields, updates never
change which rows the later queries of the same loop match, so the
lookups below may equivalently run against the evolving `base`. -/

/-- The duplicate filter of the upload loop (the DedupKey): same account,
date, amount and description.  Amounts compare numerically, as in SQL. -/
abbrev dedupMatches (acct : Int) (t : Txn) (s : TransactionRec) : Prop :=
  s.account_id = acct ∧ s.date = t.date ∧ s.amount.sameVal t.amount ∧
    s.description = t.description

/-- `setattr(existing, key, value)` for every key of the parsed dict. -/
def updateFields (t : Txn) (s : TransactionRec) : TransactionRec :=
  { s with account_id := t.account_id, date := t.date, description := t.description,
           amount := t.amount, transaction_type := t.transaction_type }

/-- Overwrite the first stored row matching the record's DedupKey. -/
def updateFirst (acct : Int) (t : Txn) : List TransactionRec → List TransactionRec
  | [] => []
  | s :: ss =>
    if dedupMatches acct t s then updateFields t s :: ss
    else s :: updateFirst acct t ss

/-- A freshly inserted transaction row: owned by the importing user, with
no category yet (`is_categorized` defaults to false; the id is assigned
by the store and is irrelevant to dedup matching). -/
def mkStored (user : Int) (t : Txn) : TransactionRec :=
  { id := 0, user_id := user, account_id := t.account_id, category_id := none,
    date := t.date, description := t.description, amount := t.amount,
    transaction_type := t.transaction_type, is_categorized := false }

/-- State of the upload loop: the committed rows (with pending field
updates applied), the rows added but not yet committed, and the two
counters. -/
structure ImportAcc where
  base : List TransactionRec
  pending : List TransactionRec
  created : Nat
  updated : Nat
deriving DecidableEq, Repr

/-- One iteration of the upload loop: update the first DedupKey match,
or add a new row. -/
def importStep (user acct : Int) (st : ImportAcc) (t : Txn) : ImportAcc :=
  if st.base.any (fun s => decide (dedupMatches acct t s)) then
    { st with base := updateFirst acct t st.base, updated := st.updated + 1 }
  else
    { st with pending := st.pending ++ [mkStored user t], created := st.created + 1 }

/-- `upload_transactions`' import loop followed by `db.commit()`:
returns the committed store and the `(created, updated)` counters. -/
def upload_transactions (user acct : Int) (store : List TransactionRec)
    (ts : List Txn) : List TransactionRec × Nat × Nat :=
  let st := ts.foldl (importStep user acct) ⟨store, [], 0, 0⟩
  (st.base ++ st.pending, st.created, st.updated)

/-! ### Concrete fixtures used by witnesses and counterexamples -/

/-- A regex oracle whose searches never raise and never match. -/
def reNone : String → String → Except Unit Bool := fun _ _ => .ok false

/-- An AI collaborator that never suggests a category. -/
def aiNone : String → Option Category := fun _ => none

/-- A 501-character description. -/
def longDesc : String := ⟨List.replicate 501 'A'⟩

def rowLong : CsvRow :=
  { dateCell := some "2024-01-15", descCell := some longDesc,
    amountCell := some "-5.50", otherCellsNa := true }

def txnLong : Txn :=
  { account_id := 1, date := ⟨2024, 1, 15, 0, 0, 0⟩, description := longDesc,
    amount := ⟨-550, 2⟩, transaction_type := "debit" }

def badRow : CsvRow :=
  { dateCell := some "13/13/2024", descCell := some "X",
    amountCell := some "1.00", otherCellsNa := true }

def goodRow : CsvRow :=
  { dateCell := some "2024-01-15", descCell := some "OK",
    amountCell := some "-5.50", otherCellsNa := true }

def txnA : Txn :=
  { account_id := 1, date := ⟨2024, 1, 15, 0, 0, 0⟩, description := "STARBUCKS STORE 1234",
    amount := ⟨-550, 2⟩, transaction_type := "debit" }

def catFood : Category := { id := 3, name := "Food" }

def catDining : Category := { id := 4, name := "Dining" }

/-- A low-priority rule that matches a STARBUCKS description. -/
def ruleA : Rule :=
  { id := 1, user_id := 1, category_id := 3, pattern := "star",
    pattern_type := "contains", priority := 1, is_active := true, created_at := 1 }

/-- A high-priority rule that does not match it. -/
def ruleB : Rule :=
  { id := 2, user_id := 1, category_id := 4, pattern := "uber",
    pattern_type := "contains", priority := 9, is_active := true, created_at := 2 }

/-- Earlier-created of two equal-priority matching rules. -/
def ruleT1 : Rule :=
  { id := 3, user_id := 1, category_id := 3, pattern := "coffee",
    pattern_type := "contains", priority := 5, is_active := true, created_at := 1 }

/-- Later-created of two equal-priority matching rules. -/
def ruleT2 : Rule :=
  { id := 4, user_id := 1, category_id := 4, pattern := "coff",
    pattern_type := "contains", priority := 5, is_active := true, created_at := 2 }

/-- An active rule matching no fixture description. -/
def ruleNoMatch : Rule :=
  { id := 5, user_id := 1, category_id := 3, pattern := "uber",
    pattern_type := "contains", priority := 5, is_active := true, created_at := 1 }

def trec1 : TransactionRec :=
  { id := 5, user_id := 1, account_id := 1, category_id := none,
    date := ⟨2024, 1, 15, 0, 0, 0⟩, description := "STARBUCKS", amount := ⟨-550, 2⟩,
    transaction_type := "debit", is_categorized := false }

/-! ## Theorems -/

/-- Helper: a first-success scan returns nothing exactly when every
element yields nothing. -/
theorem findSome?_isNone_eq_all {α β : Type} (f : α → Option β) (l : List α) :
    (l.findSome? f).isNone = l.all fun a => (f a).isNone := by
  induction l with
  | nil => rfl
  | cons a l ih => cases h : f a <;> simp [List.findSome?_cons, h, ih]

/-- C10: the decoding loop never fails: latin-1, tried before cp1252 and
iso-8859-1, decodes every byte sequence, so whatever the earlier utf-8
attempts do, some encoding in the prioritized list succeeds and the
`"Unable to decode file"` branch is unreachable. -/
theorem c10_decode_never_fails
    (utf8 utf8sig cp1252 iso88591 : List (Fin 256) → Option String)
    (bs : List (Fin 256)) :
    ∃ s, decodeContent utf8 utf8sig cp1252 iso88591 bs = some s := by
  cases h1 : utf8 bs with
  | some s => exact ⟨s, by simp [decodeContent, List.findSome?_cons, h1]⟩
  | none =>
    cases h2 : utf8sig bs with
    | some s => exact ⟨s, by simp [decodeContent, List.findSome?_cons, h1, h2]⟩
    | none =>
      exact ⟨⟨bs.map fun b => Char.ofNat b.val⟩,
        by simp [decodeContent, List.findSome?_cons, h1, h2, latin1Decode]⟩

/-- C7: evaluating a rule of pattern type regex whose pattern is not a
valid regular expression (the `re.search` collaborator raises `re.error`)
returns a non-match rather than propagating the error. -/
theorem c7_malformed_regex_nonmatch (reS : String → String → Except Unit Bool)
    (text pattern : String) (e : Unit) (h : reS pattern text = .error e) :
    matchesPattern reS text pattern ("regex") = false := by
  simp [matchesPattern, h]

/-- Witness for C7 at a concrete always-raising oracle and inputs. -/
theorem c7_malformed_regex_nonmatch_witness :
    matchesPattern (fun _ _ => .error ()) ("COFFEE SHOP") ("(") ("regex") = false :=
  c7_malformed_regex_nonmatch (fun _ _ => .error ()) ("COFFEE SHOP") ("(") () rfl

/-- C8: contains, starts_with and exact matching is case-insensitive:
replacing the description or the pattern by any case variant (any string
with the same lowercasing) leaves the match result unchanged. -/
theorem c8_match_case_insensitive (reS : String → String → Except Unit Bool)
    (text pattern text' pattern' : String)
    (ht : pyLower text' = pyLower text) (hp : pyLower pattern' = pyLower pattern)
    (pt : String) (hpt : pt = "contains" ∨ pt = "starts_with" ∨ pt = "exact") :
    matchesPattern reS text' pattern' pt = matchesPattern reS text pattern pt := by
  rcases hpt with h | h | h <;> subst h <;> simp [matchesPattern, ht, hp]

/-- Witness for C8: pattern `"coffee"` against `"COFFEE SHOP"` matches
with type contains, and the result agrees with the all-lowercase
variant. -/
theorem c8_match_case_insensitive_witness :
    matchesPattern reNone ("COFFEE SHOP") ("coffee") ("contains") =
      matchesPattern reNone ("coffee shop") ("coffee") ("contains") ∧
    matchesPattern reNone ("COFFEE SHOP") ("coffee") ("contains") = true :=
  ⟨c8_match_case_insensitive reNone ("coffee shop") ("coffee") ("COFFEE SHOP") ("coffee")
      (by decide) (by decide) ("contains") (Or.inl rfl),
   by decide⟩

/-- C3 counterexample: the source's format list extends only
`YYYY-MM-DD` and `MM/DD/YYYY` with a time suffix, not all six formats as
the claim states.  The input `"2024/01/15 10:00:00"` (format
`YYYY/MM/DD HH:MM:SS`, which the claim's list contains) parses under the
claimed list but fails in `parse_date`. -/
theorem c3_counterexample :
    parse_date ("2024/01/15 10:00:00") = none ∧
    specParseDate ("2024/01/15 10:00:00") = some ⟨2024, 1, 15, 10, 0, 0⟩ := by
  exact ⟨by decide, by decide⟩

/-- C3 amended: `parse_date` tries, in order, exactly the six date-only
formats `YYYY-MM-DD`, `MM/DD/YYYY`, `DD/MM/YYYY`, `YYYY/MM/DD`,
`MM-DD-YYYY`, `DD-MM-YYYY` followed by the two time-suffixed formats
`YYYY-MM-DD HH:MM:SS` and `MM/DD/YYYY HH:MM:SS`; the first format that
parses wins; it fails exactly when every format in the list fails; and
the ambiguous `"03/04/2024"` resolves via the `MM/DD/YYYY` precedence to
March 4. -/
theorem c3_amended_format_list :
    (∀ s, parse_date s = specParseDateAmended s) ∧
    (∀ s, (parse_date s).isNone = (date_formats.all fun f => (strptime f s).isNone)) ∧
    parse_date ("03/04/2024") = some ⟨2024, 3, 4, 0, 0, 0⟩ := by
  refine ⟨fun s => ?_, fun s => findSome?_isNone_eq_all _ _, by decide⟩
  have h : spec_date_formats_amended = date_formats := by decide
  simp [parse_date, specParseDateAmended, h]

/-- Helper: one unfolding step of the row loop. -/
theorem collectRows_cons (acct : Int) (n : Nat) (r : CsvRow) (rest : List CsvRow) :
    collectRows acct n (r :: rest) =
      match processRow acct r with
      | .skip => collectRows acct (n + 1) rest
      | .err reason => ((collectRows acct (n + 1) rest).1,
                        errMsg n reason :: (collectRows acct (n + 1) rest).2)
      | .ok t => (t :: (collectRows acct (n + 1) rest).1,
                  (collectRows acct (n + 1) rest).2) := by
  rcases h : collectRows acct (n + 1) rest with ⟨ts, es⟩
  cases hp : processRow acct r <;> simp [collectRows, h, hp]

/-- Helper: the records produced and the number of row errors do not
depend on the starting row number (only the error strings mention it). -/
theorem collectRows_num_irrel (acct : Int) (rows : List CsvRow) :
    ∀ n m, (collectRows acct n rows).1 = (collectRows acct m rows).1 ∧
      (collectRows acct n rows).2.length = (collectRows acct m rows).2.length := by
  induction rows with
  | nil => intro n m; exact ⟨rfl, rfl⟩
  | cons r rest ih =>
    intro n m
    cases hp : processRow acct r <;>
      simp [collectRows_cons, hp, (ih (n + 1) (m + 1)).1, (ih (n + 1) (m + 1)).2]

/-- Helper: inserting a failing row anywhere changes no produced record
and adds exactly one row error. -/
theorem collect_insert_err (acct : Int) (r : CsvRow) (reason : RowReason)
    (h : processRow acct r = .err reason) (post : List CsvRow) :
    ∀ (pre : List CsvRow) (n : Nat),
      (collectRows acct n (pre ++ r :: post)).1 = (collectRows acct n (pre ++ post)).1 ∧
      (collectRows acct n (pre ++ r :: post)).2.length
        = (collectRows acct n (pre ++ post)).2.length + 1 := by
  intro pre
  induction pre with
  | nil =>
    intro n
    refine ⟨?_, ?_⟩
    · simp [collectRows_cons, h, (collectRows_num_irrel acct post (n + 1) n).1]
    · simp [collectRows_cons, h, (collectRows_num_irrel acct post (n + 1) n).2]
  | cons p pre ih =>
    intro n
    cases hp : processRow acct p <;>
      simp [collectRows_cons, hp, (ih (n + 1)).1, (ih (n + 1)).2]

/-- Helper: the row phase as a single conditional on the collected
results. -/
theorem parse_csv_rows_eq (acct : Int) (rows : List CsvRow) :
    parse_csv_rows acct rows =
      if (collectRows acct 2 rows).1.isEmpty then
        .error (.noValidRows ((collectRows acct 2 rows).2.take 5)
                 ((collectRows acct 2 rows).2.length - 5))
      else .ok ((collectRows acct 2 rows).1, (collectRows acct 2 rows).2) := by
  rcases h : collectRows acct 2 rows with ⟨ts, es⟩
  simp [parse_csv_rows, h]

/-- C6: a row-level normalization failure never aborts the import: a
failing row leaves the produced records unchanged and adds exactly one
row error; while any valid record remains the importer returns them all;
and only when zero valid records remain does it fail, with at most five
sample row errors and the count of the remaining ones. -/
theorem c6_row_errors_nonfatal (acct : Int) (pre post : List CsvRow) (r : CsvRow)
    (reason : RowReason) (h : processRow acct r = .err reason) :
    ((collectRows acct 2 (pre ++ r :: post)).1 = (collectRows acct 2 (pre ++ post)).1) ∧
    ((collectRows acct 2 (pre ++ r :: post)).2.length
      = (collectRows acct 2 (pre ++ post)).2.length + 1) ∧
    ((collectRows acct 2 (pre ++ post)).1 ≠ [] →
      parse_csv_rows acct (pre ++ r :: post) =
        .ok ((collectRows acct 2 (pre ++ r :: post)).1,
             (collectRows acct 2 (pre ++ r :: post)).2)) ∧
    (∀ rows : List CsvRow, (collectRows acct 2 rows).1 = [] →
      parse_csv_rows acct rows =
        .error (.noValidRows ((collectRows acct 2 rows).2.take 5)
                 ((collectRows acct 2 rows).2.length - 5)) ∧
      ((collectRows acct 2 rows).2.take 5).length ≤ 5) := by
  obtain ⟨h1, h2⟩ := collect_insert_err acct r reason h post pre 2
  refine ⟨h1, h2, ?_, ?_⟩
  · intro hne
    have hne' : ((collectRows acct 2 (pre ++ post)).1.isEmpty) = false := by
      cases hl : (collectRows acct 2 (pre ++ post)).1 with
      | nil => exact absurd hl hne
      | cons a l => simp
    rw [parse_csv_rows_eq, h1, hne']
    simp
  · intro rows hz
    rw [parse_csv_rows_eq]
    simp [hz, List.length_take]

/-- Witness for C6: a bad-date row ahead of a good row is collected as an
error while the good row's record is still returned. -/
theorem c6_row_errors_nonfatal_witness :
    processRow 1 badRow = .err (.dateParse ("13/13/2024")) ∧
    parse_csv_rows 1 ([] ++ badRow :: [goodRow]) =
      .ok ((collectRows 1 2 ([] ++ badRow :: [goodRow])).1,
           (collectRows 1 2 ([] ++ badRow :: [goodRow])).2) :=
  ⟨by decide,
   (c6_row_errors_nonfatal 1 [] [goodRow] badRow (.dateParse ("13/13/2024"))
      (by decide)).2.2.1 (by decide)⟩

/-- Helper: a record produced by the row loop has a non-empty
description (the loop rejects rows whose stripped description is empty
or the missing-value sentinel). -/
theorem processRow_ok_desc (acct : Int) (r : CsvRow) (t : Txn)
    (h : processRow acct r = .ok t) : t.description ≠ "" := by
  simp only [processRow] at h
  split at h
  · simp at h
  split at h
  · simp at h
  split at h
  · simp at h
  split at h
  · simp at h
  rename_i hdesc
  split at h
  · simp at h
  split at h
  · simp at h
  injection h with h2
  subst h2
  intro hc
  exact hdesc (Or.inl hc)

set_option maxRecDepth 4000 in
/-- C9 counterexample: a CSV row with a 501-character description imports
successfully, so the importer enforces no 500-character bound on
descriptions (that bound exists only on the manual-create API schema). -/
theorem c9_counterexample :
    parse_csv_rows 1 [rowLong] = .ok ([txnLong], []) ∧
    500 < txnLong.description.length := by
  have hc : collectRows 1 2 [rowLong] = ([txnLong], []) := by decide
  refine ⟨?_, by decide⟩
  rw [parse_csv_rows_eq, hc]
  simp

/-- C9 amended: every record produced by the importer has a non-empty
description; no upper length bound is enforced. -/
theorem c9_amended_nonempty (acct : Int) (n : Nat) (rows : List CsvRow) :
    ∀ t ∈ (collectRows acct n rows).1, t.description ≠ "" := by
  induction rows generalizing n with
  | nil => intro t ht; simp [collectRows] at ht
  | cons r rest ih =>
    intro t ht
    rw [collectRows_cons] at ht
    cases hp : processRow acct r with
    | skip => rw [hp] at ht; exact ih (n + 1) t ht
    | err reason => rw [hp] at ht; exact ih (n + 1) t ht
    | ok t0 =>
      rw [hp] at ht
      rcases List.mem_cons.1 ht with rfl | ht'
      · exact processRow_ok_desc acct r t hp
      · exact ih (n + 1) t ht'

set_option maxRecDepth 4000 in
/-- Witness for C9 (amended) at the concrete long-description row. -/
theorem c9_amended_nonempty_witness :
    txnLong ∈ (collectRows 1 2 [rowLong]).1 ∧ txnLong.description ≠ "" :=
  ⟨by decide, c9_amended_nonempty 1 2 [rowLong] txnLong (by decide)⟩

/-- Helper: when no rule in the list matches, the rule loop yields no
category. -/
theorem ruleChoose_eq_none (reS : String → String → Except Unit Bool)
    (cats : List Category) (desc : String) (l : List Rule)
    (h : ∀ rl ∈ l, matchesPattern reS desc rl.pattern rl.pattern_type = false) :
    ruleChoose reS cats desc l = none := by
  induction l with
  | nil => rfl
  | cons x xs ih =>
    have hx := h x (by simp)
    simp [ruleChoose, hx, ih fun rl hrl => h rl (List.mem_cons_of_mem _ hrl)]

/-- Helper: membership in the canonical database rule order. -/
theorem mem_dbRuleOrder {rules : List Rule} {uid : Int} {r : Rule}
    (h : r ∈ dbRuleOrder rules uid) : r ∈ rules ∧ activeFor uid r = true :=
  List.mem_filter.1 ((List.mem_insertionSort prioGE).1 h)

/-- Helper: one batch step on an id that resolves to a transaction
matched by no active rule of its user only bumps the uncategorized
counter. -/
theorem batchStep_no_match (reS : String → String → Except Unit Bool)
    (ai : String → Option Category) (rules : List Rule) (cats : List Category)
    (db : List TransactionRec) (c u : Nat) (tid : Int)
    (hid : ∃ t ∈ db, t.id = tid)
    (hnm : ∀ t ∈ db, t.id = tid → ∀ rl ∈ rules, rl.user_id = t.user_id →
      rl.is_active = true →
      matchesPattern reS t.description rl.pattern rl.pattern_type = false) :
    batchStep reS ai rules cats false ⟨db, c, u, []⟩ tid = ⟨db, c, u + 1, []⟩ := by
  have hsome : (db.find? fun t => t.id == tid).isSome = true := by
    rcases hid with ⟨t, ht, hteq⟩
    exact List.find?_isSome.2 ⟨t, ht, by simp [hteq]⟩
  cases hf : db.find? (fun t => t.id == tid) with
  | none => rw [hf] at hsome; simp at hsome
  | some t0 =>
    have ht0 : t0 ∈ db := List.mem_of_find?_eq_some hf
    have ht0id : t0.id = tid := by
      have := List.find?_some hf
      rwa [beq_iff_eq] at this
    have hnone : ruleChoose reS cats t0.description (dbRuleOrder rules t0.user_id) = none := by
      apply ruleChoose_eq_none
      intro rl hrl
      obtain ⟨hmem, hact⟩ := mem_dbRuleOrder hrl
      rw [activeFor, Bool.and_eq_true, beq_iff_eq] at hact
      exact hnm t0 ht0 ht0id rl hmem hact.1 hact.2
    simp [batchStep, hf, categorizeTransaction, hnone]

/-- C5: a batch categorization call with `use_ai = false` on ids that all
resolve to stored transactions, where no active rule of the owning user
matches any of the referenced transactions' descriptions, returns the
whole batch as uncategorized, zero categorized, an empty error list, and
leaves the store unchanged. -/
theorem c5_batch_no_matching_rules (reS : String → String → Except Unit Bool)
    (ai : String → Option Category) (rules : List Rule) (cats : List Category)
    (db : List TransactionRec) (ids : List Int)
    (hids : ∀ tid ∈ ids, ∃ t ∈ db, t.id = tid)
    (hnm : ∀ t ∈ db, t.id ∈ ids → ∀ rl ∈ rules, rl.user_id = t.user_id →
      rl.is_active = true →
      matchesPattern reS t.description rl.pattern rl.pattern_type = false) :
    categorize_batch reS ai rules cats db ids false = ⟨db, 0, ids.length, []⟩ := by
  have aux : ∀ (l : List Int), (∀ tid ∈ l, ∃ t ∈ db, t.id = tid) →
      (∀ tid ∈ l, ∀ t ∈ db, t.id = tid → ∀ rl ∈ rules, rl.user_id = t.user_id →
        rl.is_active = true →
        matchesPattern reS t.description rl.pattern rl.pattern_type = false) →
      ∀ c u, l.foldl (batchStep reS ai rules cats false) ⟨db, c, u, []⟩ =
        ⟨db, c, u + l.length, []⟩ := by
    intro l
    induction l with
    | nil => intro _ _ c u; simp
    | cons tid rest ih =>
      intro hl hl2 c u
      rw [List.foldl_cons,
        batchStep_no_match reS ai rules cats db c u tid (hl tid (by simp))
          (hl2 tid (by simp)),
        ih (fun x hx => hl x (List.mem_cons_of_mem _ hx))
          (fun x hx => hl2 x (List.mem_cons_of_mem _ hx)) c (u + 1)]
      simp [Nat.add_assoc, Nat.add_comm 1]
  rw [categorize_batch,
    aux ids hids (fun tid htid t ht hteq => hnm t ht (hteq ▸ htid)) 0 0]
  simp

/-- Witness for C5: one stored transaction, one non-matching active rule. -/
theorem c5_batch_no_matching_rules_witness :
    categorize_batch reNone aiNone [ruleNoMatch] [catFood] [trec1] [5] false =
      ⟨[trec1], 0, 1, []⟩ :=
  c5_batch_no_matching_rules reNone aiNone [ruleNoMatch] [catFood] [trec1] [5]
    (by decide) (by decide)

/-- Helper: over a priority-sorted rule list with pairwise-distinct
priorities, the rule loop returns the category of the maximal-priority
matching rule. -/
theorem ruleChoose_sorted_max (reS : String → String → Except Unit Bool)
    (cats : List Category) (desc : String) (r : Rule) (c : Category)
    (hm : matchesPattern reS desc r.pattern r.pattern_type = true)
    (hc : findCategory cats r.category_id = some c) :
    ∀ l : List Rule, l.Pairwise prioGE →
      l.Pairwise (fun a b => a.priority ≠ b.priority) → r ∈ l →
      (∀ r' ∈ l, matchesPattern reS desc r'.pattern r'.pattern_type = true →
        r'.priority ≤ r.priority) →
      ruleChoose reS cats desc l = some c := by
  intro l
  induction l with
  | nil => intro _ _ hr _; simp at hr
  | cons x xs ih =>
    intro hsort hdist hr hmax
    cases hxm : matchesPattern reS desc x.pattern x.pattern_type with
    | true =>
      have hxr : x = r := by
        rcases List.mem_cons.1 hr with rfl | hr'
        · rfl
        · have h1 : r.priority ≤ x.priority := List.rel_of_pairwise_cons hsort hr'
          have h2 : x.priority ≤ r.priority := hmax x (by simp) hxm
          have h3 : x.priority ≠ r.priority := (List.pairwise_cons.1 hdist).1 r hr'
          exact absurd (le_antisymm h2 h1) h3
      subst hxr
      simp [ruleChoose, hxm, hc]
    | false =>
      have hr' : r ∈ xs := by
        rcases List.mem_cons.1 hr with rfl | h
        · simp [hm] at hxm
        · exact h
      have hre := ih hsort.of_cons hdist.of_cons hr'
        (fun r' h' hm' => hmax r' (List.mem_cons_of_mem _ h') hm')
      simp [ruleChoose, hxm, hre]

/-- C2: with pairwise-distinct priorities, the engine's chosen category
is the category of the highest-priority matching rule, whatever order the
database returns the rules in, and the choice is invariant under any
permutation of the input rule list. -/
theorem c2_highest_priority_wins (reS : String → String → Except Unit Bool)
    (cats : List Category) (desc : String) (uid : Int)
    (rules : List Rule) (r : Rule) (c : Category)
    (hdist : rules.Pairwise fun a b => a.priority ≠ b.priority)
    (hact : ∀ r' ∈ rules, activeFor uid r' = true)
    (hr : r ∈ rules)
    (hm : matchesPattern reS desc r.pattern r.pattern_type = true)
    (hmax : ∀ r' ∈ rules, matchesPattern reS desc r'.pattern r'.pattern_type = true →
      r'.priority ≤ r.priority)
    (hc : findCategory cats r.category_id = some c) :
    (∀ l, validOrder rules uid l → ruleChoose reS cats desc l = some c) ∧
    (∀ rules', rules'.Perm rules → ∀ l, validOrder rules' uid l →
      ruleChoose reS cats desc l = some c) := by
  have hfilter : rules.filter (activeFor uid) = rules := List.filter_eq_self.2 hact
  have main : ∀ l, l.Perm rules → l.Pairwise prioGE →
      ruleChoose reS cats desc l = some c := by
    intro l hperm hsort
    apply ruleChoose_sorted_max reS cats desc r c hm hc l hsort
    · exact (List.Perm.pairwise_iff (fun h => Ne.symm h) hperm).2 hdist
    · exact hperm.mem_iff.2 hr
    · intro r' h' hm'
      exact hmax r' (hperm.subset h') hm'
  have hfe : (rules.filter (activeFor uid)).Perm rules := by rw [hfilter]
  refine ⟨?_, ?_⟩
  · rintro l ⟨hp, hs⟩
    exact main l (hp.trans hfe) hs
  · rintro rules' hperm' l ⟨hp, hs⟩
    exact main l (hp.trans ((hperm'.filter _).trans hfe)) hs

/-- Witness for C2: two rules with distinct priorities where only the
low-priority one matches, evaluated via a valid descending order. -/
theorem c2_highest_priority_wins_witness :
    validOrder [ruleA, ruleB] 1 [ruleB, ruleA] ∧
    ruleChoose reNone [catFood] ("STARBUCKS COFFEE") [ruleB, ruleA] = some catFood :=
  ⟨by decide,
   (c2_highest_priority_wins reNone [catFood] ("STARBUCKS COFFEE") 1 [ruleA, ruleB]
      ruleA catFood (by decide) (by decide) (by decide) (by decide) (by decide)
      (by decide)).1 [ruleB, ruleA] (by decide)⟩

/-- C4 counterexample: two equal-priority active matching rules; the
database ordering `[ruleT2, ruleT1]` is valid for `ORDER BY priority
DESC` (the code adds no secondary sort key), yet the engine then returns
the category of the later-created rule, not the earliest-created one as
the claim requires. -/
theorem c4_counterexample :
    validOrder [ruleT1, ruleT2] 1 [ruleT2, ruleT1] ∧
    ruleT1.created_at < ruleT2.created_at ∧
    ruleT1.priority = ruleT2.priority ∧
    matchesPattern reNone ("COFFEE SHOP") ruleT1.pattern ruleT1.pattern_type = true ∧
    matchesPattern reNone ("COFFEE SHOP") ruleT2.pattern ruleT2.pattern_type = true ∧
    findCategory [catFood, catDining] ruleT1.category_id = some catFood ∧
    ruleChoose reNone [catFood, catDining] ("COFFEE SHOP") [ruleT2, ruleT1] =
      some catDining ∧
    catDining ≠ catFood := by decide

/-- Helper: over a priority-sorted rule list whose categories all
resolve, the loop picks the first matching rule, which has maximal
priority among matchers. -/
theorem ruleChoose_first_matcher (reS : String → String → Except Unit Bool)
    (cats : List Category) (desc : String) :
    ∀ l : List Rule, l.Pairwise prioGE →
      (∀ rl ∈ l, ∃ c, findCategory cats rl.category_id = some c) →
      ∀ r₀ ∈ l, matchesPattern reS desc r₀.pattern r₀.pattern_type = true →
      ∃ r c, r ∈ l ∧ matchesPattern reS desc r.pattern r.pattern_type = true ∧
        findCategory cats r.category_id = some c ∧
        ruleChoose reS cats desc l = some c ∧
        ∀ r' ∈ l, matchesPattern reS desc r'.pattern r'.pattern_type = true →
          r'.priority ≤ r.priority := by
  intro l
  induction l with
  | nil => intro _ _ r₀ hr₀; simp at hr₀
  | cons x xs ih =>
    intro hsort hcats r₀ hr₀ hm₀
    cases hxm : matchesPattern reS desc x.pattern x.pattern_type with
    | true =>
      obtain ⟨c, hc⟩ := hcats x (by simp)
      refine ⟨x, c, by simp, hxm, hc, by simp [ruleChoose, hxm, hc], ?_⟩
      intro r' hr' hm'
      rcases List.mem_cons.1 hr' with rfl | h
      · exact le_refl _
      · exact List.rel_of_pairwise_cons hsort h
    | false =>
      have hr₀' : r₀ ∈ xs := by
        rcases List.mem_cons.1 hr₀ with rfl | h
        · simp [hm₀] at hxm
        · exact h
      obtain ⟨r, c, hrmem, hrm, hc, hch, hmax⟩ :=
        ih hsort.of_cons (fun rl h => hcats rl (List.mem_cons_of_mem _ h)) r₀ hr₀' hm₀
      refine ⟨r, c, List.mem_cons_of_mem _ hrmem, hrm, hc,
        by simp [ruleChoose, hxm, hch], ?_⟩
      intro r' hr' hm'
      rcases List.mem_cons.1 hr' with rfl | h
      · simp [hm'] at hxm
      · exact hmax r' h hm'

/-- C4 amended: when equal-priority active rules match, the engine is
guaranteed only to return the category of some maximal-priority matching
rule; the code orders by priority alone, so which tied rule wins depends
on the database's unspecified tie order, not on creation order. -/
theorem c4_amended_max_priority_matcher (reS : String → String → Except Unit Bool)
    (cats : List Category) (desc : String) (uid : Int)
    (rules l : List Rule) (hord : validOrder rules uid l)
    (hcats : ∀ rl ∈ rules, ∃ c, findCategory cats rl.category_id = some c)
    (r₀ : Rule) (hr₀ : r₀ ∈ rules) (hact₀ : activeFor uid r₀ = true)
    (hm₀ : matchesPattern reS desc r₀.pattern r₀.pattern_type = true) :
    ∃ r c, r ∈ rules ∧ activeFor uid r = true ∧
      matchesPattern reS desc r.pattern r.pattern_type = true ∧
      findCategory cats r.category_id = some c ∧
      ruleChoose reS cats desc l = some c ∧
      ∀ r' ∈ rules, activeFor uid r' = true →
        matchesPattern reS desc r'.pattern r'.pattern_type = true →
        r'.priority ≤ r.priority := by
  obtain ⟨hp, hs⟩ := hord
  have hr₀l : r₀ ∈ l := hp.mem_iff.2 (List.mem_filter.2 ⟨hr₀, hact₀⟩)
  obtain ⟨r, c, hrl, hrm, hc, hch, hmax⟩ :=
    ruleChoose_first_matcher reS cats desc l hs
      (fun rl h => hcats rl (List.mem_filter.1 (hp.subset h)).1) r₀ hr₀l hm₀
  have hrf := List.mem_filter.1 (hp.subset hrl)
  exact ⟨r, c, hrf.1, hrf.2, hrm, hc, hch, fun r' h' ha' hm' =>
    hmax r' (hp.mem_iff.2 (List.mem_filter.2 ⟨h', ha'⟩)) hm'⟩

/-- Witness for C4 (amended) at the tied-priority fixture. -/
theorem c4_amended_max_priority_matcher_witness :
    ∃ r c, r ∈ [ruleT1, ruleT2] ∧ activeFor 1 r = true ∧
      matchesPattern reNone ("COFFEE SHOP") r.pattern r.pattern_type = true ∧
      findCategory [catFood, catDining] r.category_id = some c ∧
      ruleChoose reNone [catFood, catDining] ("COFFEE SHOP") [ruleT2, ruleT1] = some c ∧
      ∀ r' ∈ [ruleT1, ruleT2], activeFor 1 r' = true →
        matchesPattern reNone ("COFFEE SHOP") r'.pattern r'.pattern_type = true →
        r'.priority ≤ r.priority :=
  c4_amended_max_priority_matcher reNone [catFood, catDining] ("COFFEE SHOP") 1
    [ruleT1, ruleT2] [ruleT2, ruleT1] (by decide)
    (by
      intro rl hrl
      rcases List.mem_cons.1 hrl with rfl | hrl
      · exact ⟨catFood, by decide⟩
      rcases List.mem_cons.1 hrl with rfl | hrl
      · exact ⟨catDining, by decide⟩
      · simp at hrl)
    ruleT1 (by decide) (by decide) (by decide)

/-- Helper: numeric decimal equality is reflexive. -/
theorem Dec.sameVal_refl (a : Dec) : a.sameVal a := rfl

/-- Helper: numeric decimal equality is symmetric. -/
theorem Dec.sameVal_symm {a b : Dec} (h : a.sameVal b) : b.sameVal a := h.symm

/-- Helper: numeric decimal equality is transitive. -/
theorem Dec.sameVal_trans {a b c : Dec} (hab : a.sameVal b) (hbc : b.sameVal c) :
    a.sameVal c := by
  unfold Dec.sameVal at *
  have hb : (10 : Int) ^ b.scale ≠ 0 := pow_ne_zero _ (by norm_num)
  apply mul_right_cancel₀ hb
  linear_combination (10 : Int) ^ c.scale * hab + (10 : Int) ^ a.scale * hbc

/-- Helper: a freshly inserted row matches its own record's DedupKey. -/
theorem dedupMatches_mkStored (user acct : Int) (t : Txn) (h : t.account_id = acct) :
    dedupMatches acct t (mkStored user t) :=
  ⟨h, rfl, Dec.sameVal_refl _, rfl⟩

/-- Helper: overwriting the first row matching one record's DedupKey
cannot remove any other record's DedupKey match, because the overwrite
equates exactly the key fields. -/
theorem updateFirst_preserves (acct : Int) (u t : Txn) (hu : u.account_id = acct) :
    ∀ base : List TransactionRec, (∃ s ∈ base, dedupMatches acct t s) →
      ∃ s ∈ updateFirst acct u base, dedupMatches acct t s := by
  intro base
  induction base with
  | nil => intro h; simp at h
  | cons x xs ih =>
    rintro ⟨s, hs, hm⟩
    by_cases hx : dedupMatches acct u x
    · rcases List.mem_cons.1 hs with rfl | hs'
      · refine ⟨updateFields u s,
          by simp only [updateFirst]; rw [if_pos hx]; exact List.mem_cons_self _ _, ?_⟩
        obtain ⟨hxa, hxd, hxm, hxs⟩ := hx
        obtain ⟨hta, htd, htm, hts⟩ := hm
        refine ⟨?_, ?_, ?_, ?_⟩
        · simpa [updateFields] using hu
        · simp only [updateFields]
          rw [← hxd]
          exact htd
        · simp only [updateFields]
          exact Dec.sameVal_trans (Dec.sameVal_symm hxm) htm
        · simp only [updateFields]
          rw [← hxs]
          exact hts
      · exact ⟨s,
          by simp only [updateFirst]; rw [if_pos hx]; exact List.mem_cons_of_mem _ hs',
          hm⟩
    · rcases List.mem_cons.1 hs with rfl | hs'
      · exact ⟨s,
          by simp only [updateFirst]; rw [if_neg hx]; exact List.mem_cons_self _ _, hm⟩
      · obtain ⟨s', hs'', hm'⟩ := ih ⟨s, hs', hm⟩
        exact ⟨s',
          by simp only [updateFirst]; rw [if_neg hx]; exact List.mem_cons_of_mem _ hs'',
          hm'⟩

/-- Helper: importing records none of whose DedupKeys are present leaves
the committed rows untouched, stages one insert per record, and counts
them all as created. -/
theorem foldl_import_fresh (user acct : Int) :
    ∀ (ts : List Txn) (st : ImportAcc),
      (∀ t ∈ ts, ∀ s ∈ st.base, ¬ dedupMatches acct t s) →
      ts.foldl (importStep user acct) st =
        ⟨st.base, st.pending ++ ts.map (mkStored user), st.created + ts.length,
         st.updated⟩ := by
  intro ts
  induction ts with
  | nil => intro st h; simp
  | cons t ts ih =>
    intro st h
    have hany : st.base.any (fun s => decide (dedupMatches acct t s)) = false := by
      by_contra hc
      rw [Bool.not_eq_false, List.any_eq_true] at hc
      obtain ⟨s, hs, hds⟩ := hc
      exact h t (by simp) s hs (of_decide_eq_true hds)
    have hstep : importStep user acct st t =
        ⟨st.base, st.pending ++ [mkStored user t], st.created + 1, st.updated⟩ := by
      unfold importStep
      rw [hany]
      simp
    rw [List.foldl_cons, hstep,
      ih ⟨st.base, st.pending ++ [mkStored user t], st.created + 1, st.updated⟩
        (fun t' ht' s hs => h t' (List.mem_cons_of_mem _ ht') s hs)]
    simp [ImportAcc.mk.injEq, List.append_assoc]
    omega

/-- Helper: importing records whose DedupKeys are all present counts them
all as updates and stages no insert. -/
theorem foldl_import_matched (user acct : Int) :
    ∀ (ts : List Txn), (∀ t ∈ ts, t.account_id = acct) →
      ∀ st : ImportAcc, (∀ t ∈ ts, ∃ s ∈ st.base, dedupMatches acct t s) →
      ∃ base', ts.foldl (importStep user acct) st =
        ⟨base', st.pending, st.created, st.updated + ts.length⟩ := by
  intro ts
  induction ts with
  | nil => intro _ st _; exact ⟨st.base, by simp⟩
  | cons t ts ih =>
    intro hacct st hmatch
    have hany : st.base.any (fun s => decide (dedupMatches acct t s)) = true := by
      rw [List.any_eq_true]
      obtain ⟨s, hs, hm⟩ := hmatch t (by simp)
      exact ⟨s, hs, decide_eq_true hm⟩
    have hstep : importStep user acct st t =
        ⟨updateFirst acct t st.base, st.pending, st.created, st.updated + 1⟩ := by
      unfold importStep
      rw [hany]
      simp
    obtain ⟨base', hb⟩ := ih (fun t' ht' => hacct t' (List.mem_cons_of_mem _ ht'))
      ⟨updateFirst acct t st.base, st.pending, st.created, st.updated + 1⟩
      (fun t' ht' => updateFirst_preserves acct t t' (hacct t (by simp)) st.base
        (hmatch t' (List.mem_cons_of_mem _ ht')))
    refine ⟨base', ?_⟩
    rw [List.foldl_cons, hstep, hb]
    simp [ImportAcc.mk.injEq]
    omega

/-- C1: importing a file of records with fresh DedupKeys yields
`created = N, updated = 0` and commits one new row per record; importing
the identical file into the same account again then yields `created = 0,
updated = N`: every key now present is counted as an update, every
absent key as a create. -/
theorem c1_reimport_counts (user acct : Int) (store : List TransactionRec)
    (ts : List Txn)
    (hacct : ∀ t ∈ ts, t.account_id = acct)
    (hfresh : ∀ t ∈ ts, ∀ s ∈ store, ¬ dedupMatches acct t s)
    (_hN : 0 < ts.length) :
    (upload_transactions user acct store ts).2.1 = ts.length ∧
    (upload_transactions user acct store ts).2.2 = 0 ∧
    (upload_transactions user acct store ts).1 = store ++ ts.map (mkStored user) ∧
    (upload_transactions user acct (store ++ ts.map (mkStored user)) ts).2.1 = 0 ∧
    (upload_transactions user acct (store ++ ts.map (mkStored user)) ts).2.2
      = ts.length := by
  have h1 := foldl_import_fresh user acct ts ⟨store, [], 0, 0⟩
    (fun t ht s hs => hfresh t ht s hs)
  have h2 : ∀ t ∈ ts, ∃ s ∈ store ++ ts.map (mkStored user), dedupMatches acct t s :=
    fun t ht => ⟨mkStored user t,
      List.mem_append_right _ (List.mem_map_of_mem _ ht),
      dedupMatches_mkStored user acct t (hacct t ht)⟩
  obtain ⟨base', hb⟩ := foldl_import_matched user acct ts hacct
    ⟨store ++ ts.map (mkStored user), [], 0, 0⟩ h2
  refine ⟨?_, ?_, ?_, ?_, ?_⟩ <;> simp [upload_transactions, h1, hb]

/-- Witness for C1 at a one-record file and an empty store. -/
theorem c1_reimport_counts_witness :
    (upload_transactions 7 1 [] [txnA]).2.1 = [txnA].length ∧
    (upload_transactions 7 1 ([] ++ [txnA].map (mkStored 7)) [txnA]).2.2
      = [txnA].length :=
  ⟨(c1_reimport_counts 7 1 [] [txnA] (by decide) (by decide) (by decide)).1,
   (c1_reimport_counts 7 1 [] [txnA] (by decide) (by decide) (by decide)).2.2.2.2⟩

end Fintrack
